import Mathlib

/-
Verification development for the bitcoin daily-price pipeline
(src/main_script_second_version.py).

The pipeline is embedded shallowly:
  * timestamps are integers (epoch milliseconds), prices are rationals
    (the spec asks for exact arithmetic semantics, not floating point bits);
  * a pandas column is a Lean list, one entry per row, with `Option`
    marking NaN cells;
  * `drop_duplicates(keep='last')`, `rolling(w).mean()`, `ewm(span,
    adjust=False).mean()`, `diff()`, and the RSI arithmetic follow the
    pandas semantics of the corresponding calls in the source.
-/

/-- Embeds `datetime.utcfromtimestamp(price[0] / 1000).strftime('%Y-%m-%d')`
(src line 90): the UTC calendar day of an epoch-millisecond timestamp,
represented as the (floor) number of days since 1970-01-01.  Two timestamps
produce the same date string iff they have the same day number. -/
def utc_date (ms : Int) : Int := (ms.fdiv 1000).fdiv 86400

/-- Embeds `df_price.drop_duplicates(subset=['date'], keep='last')`
(src line 101): keep a row iff its date does not occur in any later row;
retained rows stay in their original order.  pandas does not sort here. -/
def drop_duplicates_keep_last : List (Int × ℚ) → List (Int × ℚ)
  | [] => []
  | x :: xs =>
    if ∃ y ∈ xs, y.1 = x.1 then drop_duplicates_keep_last xs
    else x :: drop_duplicates_keep_last xs

/-- Embeds the normalisation steps of `get_bitcoin_daily_transactions`
(src lines 89-101): convert each `[epoch_ms, price]` pair to a dated price,
then deduplicate by date keeping the last occurrence. -/
def normalize_series (prices : List (Int × ℚ)) : List (Int × ℚ) :=
  drop_duplicates_keep_last (prices.map (fun p => (utc_date p.1, p.2)))

theorem drop_duplicates_keep_last_sublist :
    ∀ l : List (Int × ℚ), (drop_duplicates_keep_last l).Sublist l := by
  intro l
  induction l with
  | nil => simp [drop_duplicates_keep_last]
  | cons x xs ih =>
    by_cases h : ∃ y ∈ xs, y.1 = x.1
    · simpa [drop_duplicates_keep_last, h] using ih.cons x
    · simpa [drop_duplicates_keep_last, h] using ih.cons₂ x

theorem mem_of_mem_drop_duplicates_keep_last {l : List (Int × ℚ)}
    {y : Int × ℚ} (h : y ∈ drop_duplicates_keep_last l) : y ∈ l :=
  (drop_duplicates_keep_last_sublist l).mem h

theorem drop_duplicates_keep_last_pairwise_lt {l : List (Int × ℚ)}
    (h : l.Pairwise (fun a b => a.1 ≤ b.1)) :
    (drop_duplicates_keep_last l).Pairwise (fun a b => a.1 < b.1) := by
  induction l with
  | nil => simp [drop_duplicates_keep_last]
  | cons x xs ih =>
    rcases List.pairwise_cons.mp h with ⟨hx, hxs⟩
    by_cases hm : ∃ y ∈ xs, y.1 = x.1
    · simpa [drop_duplicates_keep_last, hm] using ih hxs
    · rw [drop_duplicates_keep_last, if_neg hm]
      refine List.pairwise_cons.mpr ⟨?_, ih hxs⟩
      intro y hy
      have hyxs : y ∈ xs := mem_of_mem_drop_duplicates_keep_last hy
      have hle : x.1 ≤ y.1 := hx y hyxs
      have hne : y.1 ≠ x.1 := fun hEq => hm ⟨y, hyxs, hEq⟩
      exact lt_of_le_of_ne hle (fun hEq => hne hEq.symm)

theorem drop_duplicates_keep_last_nodup_dates :
    ∀ l : List (Int × ℚ),
      ((drop_duplicates_keep_last l).map Prod.fst).Nodup := by
  intro l
  induction l with
  | nil => simp [drop_duplicates_keep_last]
  | cons x xs ih =>
    by_cases hm : ∃ y ∈ xs, y.1 = x.1
    · simpa [drop_duplicates_keep_last, hm] using ih
    · rw [drop_duplicates_keep_last, if_neg hm]
      refine List.nodup_cons.mpr ⟨?_, ih⟩
      intro hmem
      rcases List.mem_map.mp hmem with ⟨y, hy, hEq⟩
      exact hm ⟨y, mem_of_mem_drop_duplicates_keep_last hy, hEq⟩

theorem filter_date_eq_nil {l : List (Int × ℚ)} {d : Int}
    (h : ¬ ∃ y ∈ l, y.1 = d) :
    l.filter (fun e => decide (e.1 = d)) = [] := by
  rw [List.filter_eq_nil_iff]
  intro a ha
  simp only [decide_eq_true_eq]
  exact fun hEq => h ⟨a, ha, hEq⟩

theorem getLast?_cons_of_ne_nil {α : Type} (x : α) {t : List α}
    (h : t ≠ []) : (x :: t).getLast? = t.getLast? := by
  cases t with
  | nil => exact absurd rfl h
  | cons y ys => simp [List.getLast?_cons_cons]

theorem drop_duplicates_keep_last_filter (d : Int) :
    ∀ l : List (Int × ℚ),
      (drop_duplicates_keep_last l).filter (fun e => decide (e.1 = d)) =
        ((l.filter (fun e => decide (e.1 = d))).getLast?).toList := by
  intro l
  induction l with
  | nil => simp [drop_duplicates_keep_last]
  | cons x xs ih =>
    by_cases hm : ∃ y ∈ xs, y.1 = x.1
    · rw [drop_duplicates_keep_last, if_pos hm]
      by_cases hd : x.1 = d
      · rcases hm with ⟨y, hy, hyx⟩
        have hyd : y ∈ xs.filter (fun e => decide (e.1 = d)) := by
          refine List.mem_filter.mpr ⟨hy, ?_⟩
          simp [hyx, hd]
        have hne : xs.filter (fun e => decide (e.1 = d)) ≠ [] :=
          List.ne_nil_of_mem hyd
        rw [ih, List.filter_cons_of_pos (by simp [hd]),
          getLast?_cons_of_ne_nil x hne]
      · rw [ih, List.filter_cons_of_neg (by simp [hd])]
    · rw [drop_duplicates_keep_last, if_neg hm]
      by_cases hd : x.1 = d
      · have hnil : xs.filter (fun e => decide (e.1 = d)) = [] := by
          refine filter_date_eq_nil ?_
          intro hc
          rcases hc with ⟨y, hy, hyd⟩
          exact hm ⟨y, hy, by rw [hyd, hd]⟩
        have hnil' :
            (drop_duplicates_keep_last xs).filter
              (fun e => decide (e.1 = d)) = [] := by
          rw [ih, hnil]
          simp
        rw [List.filter_cons_of_pos (by simp [hd]),
          List.filter_cons_of_pos (by simp [hd]), hnil, hnil']
        simp
      · rw [List.filter_cons_of_neg (by simp [hd]),
          List.filter_cons_of_neg (by simp [hd]), ih]

/-- The claim of C1, as stated, is false: the source deduplicates
(src line 101) but never sorts, so a payload whose timestamps are out of
order normalises to an out-of-order series.  Payload
`prices=[[86400000,110],[0,100]]` yields dates `[day1, day0]`. -/
theorem C1_counterexample :
    ¬ (((normalize_series [((86400000 : Int), (110 : ℚ)), ((0 : Int), (100 : ℚ))]).map
        Prod.fst).Pairwise (fun a b => a < b)) := by
  decide

/-- C1 (amended): the normalizer deduplicates by date (last occurrence wins)
but performs no sort; when the raw payload's timestamps are in
non-decreasing date order — as the API returns them — the normalized date
column is strictly ascending, and it is pairwise distinct for every
payload. -/
theorem C1_normalized_dates_sorted_of_sorted_input
    (prices : List (Int × ℚ))
    (h : prices.Pairwise (fun a b => utc_date a.1 ≤ utc_date b.1)) :
    ((normalize_series prices).map Prod.fst).Pairwise (fun a b => a < b) ∧
      ((normalize_series prices).map Prod.fst).Nodup := by
  constructor
  · rw [List.pairwise_map]
    refine drop_duplicates_keep_last_pairwise_lt ?_
    rw [List.pairwise_map]
    exact h
  · exact drop_duplicates_keep_last_nodup_dates _

theorem C1_witness :
    ([((0 : Int), (100 : ℚ)), ((86400000 : Int), (110 : ℚ))].Pairwise
        (fun a b => utc_date a.1 ≤ utc_date b.1)) ∧
      (((normalize_series [((0 : Int), (100 : ℚ)), ((86400000 : Int), (110 : ℚ))]).map
          Prod.fst).Pairwise (fun a b => a < b) ∧
        ((normalize_series [((0 : Int), (100 : ℚ)),
            ((86400000 : Int), (110 : ℚ))]).map Prod.fst).Nodup) :=
  ⟨by decide,
    C1_normalized_dates_sorted_of_sorted_input
      [((0 : Int), (100 : ℚ)), ((86400000 : Int), (110 : ℚ))] (by decide)⟩

/-- C3: for every raw payload and date `d`, the normalized series keeps
exactly the last raw occurrence whose timestamp falls on `d` (filtering the
normalized series by date `d` gives exactly the last matching dated entry),
and the spec's scenario `prices=[[0,100],[86400000,110],[86400000,105]]`
normalises to `[(day0,100),(day1,105)]` — last occurrence wins, not
largest price. -/
theorem C3_last_occurrence_wins (prices : List (Int × ℚ)) (d : Int) :
    (normalize_series prices).filter (fun e => decide (e.1 = d)) =
      (((prices.map (fun p => (utc_date p.1, p.2))).filter
          (fun e => decide (e.1 = d))).getLast?).toList ∧
      normalize_series [((0 : Int), (100 : ℚ)), ((86400000 : Int), (110 : ℚ)),
          ((86400000 : Int), (105 : ℚ))] =
        [((0 : Int), (100 : ℚ)), ((1 : Int), (105 : ℚ))] :=
  ⟨drop_duplicates_keep_last_filter d _, by decide⟩

/-- Helper: indexing a mapped range with a default. -/
theorem rangeMap_getD {α : Type} (f : ℕ → α) (n i : ℕ) (d : α) :
    ((List.range n).map f).getD i d = if i < n then f i else d := by
  by_cases h : i < n
  · rw [if_pos h, List.getD_eq_getElem _ _ (by simpa using h)]
    simp
  · rw [if_neg h]
    exact List.getD_eq_default _ _ (by simpa using Nat.le_of_not_lt h)

/-- Embeds `series.rolling(window=w).mean()` (src lines 107, 117, 118):
cell `i` is NaN while the window is not yet full (`i + 1 < w`), and the
arithmetic mean of rows `[i-w+1, i]` otherwise. -/
def rolling_mean (w : ℕ) (xs : List ℚ) : List (Option ℚ) :=
  (List.range xs.length).map (fun i =>
    if i + 1 < w then none
    else some ((((xs.take (i + 1)).drop (i + 1 - w)).sum) / (w : ℚ)))

/-- Helper for `ewm_mean`: the tail of the exponentially weighted mean,
carrying the previous output value. -/
def ewm_from (a : ℚ) : ℚ → List ℚ → List ℚ
  | _, [] => []
  | prev, x :: xs =>
    (x * a + prev * (1 - a)) :: ewm_from a (x * a + prev * (1 - a)) xs

/-- Embeds `series.ewm(span=span, adjust=False).mean()` (src lines 110,
123, 124, 126): `y[0] = x[0]` and `y[i] = x[i]*a + y[i-1]*(1-a)` with
`a = 2/(span+1)`. -/
def ewm_mean (span : ℕ) (xs : List ℚ) : List ℚ :=
  match xs with
  | [] => []
  | x :: rest => x :: ewm_from ((2 : ℚ) / ((span : ℚ) + 1)) x rest

/-- Embeds `df_price['Closing Price (USD)'].diff()` (src line 113):
NaN at row 0, `price[i] - price[i-1]` afterwards. -/
def price_change (ps : List ℚ) : List (Option ℚ) :=
  (List.range ps.length).map (fun i =>
    if i = 0 then none else some (ps.getD i 0 - ps.getD (i - 1) 0))

/-- Embeds the lambda `x if x > 0 else 0` of src line 114; note that the
NaN produced by `diff()` at row 0 fails the `x > 0` comparison, so the
cell becomes `0`, not NaN. -/
def gain_cell : Option ℚ → ℚ
  | some x => if 0 < x then x else 0
  | none => 0

/-- Embeds the lambda `-x if x < 0 else 0` of src line 115; the row-0 NaN
fails `x < 0` and becomes `0`. -/
def loss_cell : Option ℚ → ℚ
  | some x => if x < 0 then -x else 0
  | none => 0

/-- Embeds `df_price['Gain']` (src line 114). -/
def gain_col (ps : List ℚ) : List ℚ := (price_change ps).map gain_cell

/-- Embeds `df_price['Loss']` (src line 115). -/
def loss_col (ps : List ℚ) : List ℚ := (price_change ps).map loss_cell

/-- Embeds `df_price['Avg_Gain']` (src line 117). -/
def avg_gain (ps : List ℚ) : List (Option ℚ) :=
  rolling_mean 14 (gain_col ps)

/-- Embeds `df_price['Avg_Loss']` (src line 118). -/
def avg_loss (ps : List ℚ) : List (Option ℚ) :=
  rolling_mean 14 (loss_col ps)

/-- Embeds the cell arithmetic of
`df_price['Avg_Gain'] / df_price['Avg_Loss'].replace(0, np.nan)`
(src line 119): an exact zero average loss is replaced by NaN, and NaN in
either operand propagates. -/
def rs_cell : Option ℚ → Option ℚ → Option ℚ
  | some g, some l => if l = 0 then none else some (g / l)
  | _, _ => none

/-- Embeds `df_price['RS']` (src line 119). -/
def rs_col (ps : List ℚ) : List (Option ℚ) :=
  (List.range ps.length).map (fun i =>
    rs_cell ((avg_gain ps).getD i none) ((avg_loss ps).getD i none))

/-- Embeds the cell arithmetic of `100 - (100 / (1 + RS))` (src line 120),
with NaN propagation. -/
def rsi_cell : Option ℚ → Option ℚ
  | some r => some (100 - 100 / (1 + r))
  | none => none

/-- Embeds `df_price['RSI']` (src line 120). -/
def rsi_col (ps : List ℚ) : List (Option ℚ) := (rs_col ps).map rsi_cell

/-- Embeds `df_price['MACD_Line'] = df_price['12_EMA'] - df_price['26_EMA']`
(src line 125). -/
def macd_line (ps : List ℚ) : List ℚ :=
  (List.range ps.length).map (fun i =>
    (ewm_mean 12 ps).getD i 0 - (ewm_mean 26 ps).getD i 0)

/-- Embeds `df_price['Signal_Line']` (src line 126): EMA of span 9 over the
MACD line. -/
def signal_line (ps : List ℚ) : List ℚ := ewm_mean 9 (macd_line ps)

/-- Embeds `df_price['MACD_Histogram']` (src line 127). -/
def macd_histogram (ps : List ℚ) : List ℚ :=
  (List.range ps.length).map (fun i =>
    (macd_line ps).getD i 0 - (signal_line ps).getD i 0)

theorem gain_col_length (ps : List ℚ) : (gain_col ps).length = ps.length := by
  simp [gain_col, price_change]

theorem loss_col_length (ps : List ℚ) : (loss_col ps).length = ps.length := by
  simp [loss_col, price_change]

theorem gain_col_getD (ps : List ℚ) (i : ℕ) :
    (gain_col ps).getD i 0 =
      if i < ps.length then
        gain_cell (if i = 0 then none else some (ps.getD i 0 - ps.getD (i - 1) 0))
      else 0 := by
  rw [gain_col, price_change, List.map_map, rangeMap_getD]
  rfl

theorem loss_col_getD (ps : List ℚ) (i : ℕ) :
    (loss_col ps).getD i 0 =
      if i < ps.length then
        loss_cell (if i = 0 then none else some (ps.getD i 0 - ps.getD (i - 1) 0))
      else 0 := by
  rw [loss_col, price_change, List.map_map, rangeMap_getD]
  rfl

theorem price_change_getD (ps : List ℚ) (i : ℕ) :
    (price_change ps).getD i none =
      if i < ps.length then
        (if i = 0 then none else some (ps.getD i 0 - ps.getD (i - 1) 0))
      else none := by
  rw [price_change, rangeMap_getD]

theorem avg_gain_getD (ps : List ℚ) (i : ℕ) :
    (avg_gain ps).getD i none =
      if i < ps.length then
        (if i + 1 < 14 then none
         else some ((((gain_col ps).take (i + 1)).drop (i + 1 - 14)).sum / (14 : ℚ)))
      else none := by
  rw [avg_gain, rolling_mean, gain_col_length, rangeMap_getD]
  norm_num

theorem avg_loss_getD (ps : List ℚ) (i : ℕ) :
    (avg_loss ps).getD i none =
      if i < ps.length then
        (if i + 1 < 14 then none
         else some ((((loss_col ps).take (i + 1)).drop (i + 1 - 14)).sum / (14 : ℚ)))
      else none := by
  rw [avg_loss, rolling_mean, loss_col_length, rangeMap_getD]
  norm_num

theorem rsi_col_getD (ps : List ℚ) (i : ℕ) :
    (rsi_col ps).getD i none =
      if i < ps.length then
        rsi_cell (rs_cell ((avg_gain ps).getD i none) ((avg_loss ps).getD i none))
      else none := by
  rw [rsi_col, rs_col, List.map_map, rangeMap_getD]
  rfl

theorem gain_cell_nonneg (c : Option ℚ) : 0 ≤ gain_cell c := by
  cases c with
  | none => simp [gain_cell]
  | some x =>
    by_cases h : 0 < x
    · simpa [gain_cell, h] using le_of_lt h
    · simp [gain_cell, h]

theorem loss_cell_nonneg (c : Option ℚ) : 0 ≤ loss_cell c := by
  cases c with
  | none => simp [loss_cell]
  | some x =>
    by_cases h : x < 0
    · simpa [loss_cell, h] using le_of_lt (neg_pos.mpr h)
    · simp [loss_cell, h]

theorem window_sum_nonneg {l : List ℚ} (h : ∀ x ∈ l, 0 ≤ x) (a b : ℕ) :
    0 ≤ ((l.take a).drop b).sum := by
  refine List.sum_nonneg ?_
  intro x hx
  exact h x (List.take_subset a l (List.drop_subset b _ hx))

theorem avg_gain_some_nonneg {ps : List ℚ} {i : ℕ} {g : ℚ}
    (h : (avg_gain ps).getD i none = some g) : 0 ≤ g := by
  rw [avg_gain_getD] at h
  by_cases hi : i < ps.length
  · rw [if_pos hi] at h
    by_cases hw : i + 1 < 14
    · rw [if_pos hw] at h
      exact absurd h (by simp)
    · rw [if_neg hw] at h
      have hg := Option.some.inj h
      rw [← hg]
      refine div_nonneg ?_ (by norm_num)
      refine window_sum_nonneg ?_ _ _
      intro x hx
      rcases List.mem_map.mp hx with ⟨c, _, rfl⟩
      exact gain_cell_nonneg c
  · rw [if_neg hi] at h
    exact absurd h (by simp)

theorem avg_loss_some_nonneg {ps : List ℚ} {i : ℕ} {l : ℚ}
    (h : (avg_loss ps).getD i none = some l) : 0 ≤ l := by
  rw [avg_loss_getD] at h
  by_cases hi : i < ps.length
  · rw [if_pos hi] at h
    by_cases hw : i + 1 < 14
    · rw [if_pos hw] at h
      exact absurd h (by simp)
    · rw [if_neg hw] at h
      have hg := Option.some.inj h
      rw [← hg]
      refine div_nonneg ?_ (by norm_num)
      refine window_sum_nonneg ?_ _ _
      intro x hx
      rcases List.mem_map.mp hx with ⟨c, _, rfl⟩
      exact loss_cell_nonneg c
  · rw [if_neg hi] at h
    exact absurd h (by simp)

theorem ewm_from_getD (a : ℚ) :
    ∀ (l : List ℚ) (prev : ℚ) (i : ℕ), i < l.length →
      (ewm_from a prev l).getD i 0 =
        l.getD i 0 * a + ((prev :: ewm_from a prev l).getD i 0) * (1 - a) := by
  intro l
  induction l with
  | nil =>
    intro prev i h
    exact absurd h (by simp)
  | cons x xs ih =>
    intro prev i h
    cases i with
    | zero => simp [ewm_from]
    | succ j =>
      have hj : j < xs.length := by simpa using h
      have hrec := ih (x * a + prev * (1 - a)) j hj
      simpa [ewm_from] using hrec

/-- C4: for every price series and EMA span `S` (in particular the spans
200, 12, 26 and 9 used by the `200_EMA`, `12_EMA`, `26_EMA` and
`Signal_Line` columns), the column produced by
`ewm(span=S, adjust=False).mean()` satisfies `EMA[0] = input[0]` and
`EMA[i] = input[i]*a + EMA[i-1]*(1-a)` with `a = 2/(S+1)`, defined from
row 0 with no warm-up; the signal line is exactly this EMA recurrence
applied to the MACD line. -/
theorem C4_ema_recurrence (span : ℕ) (xs : List ℚ) (i : ℕ)
    (h : i + 1 < xs.length) :
    (ewm_mean span xs).getD 0 0 = xs.getD 0 0 ∧
    (ewm_mean span xs).getD (i + 1) 0 =
      xs.getD (i + 1) 0 * ((2 : ℚ) / ((span : ℚ) + 1)) +
        (ewm_mean span xs).getD i 0 * (1 - (2 : ℚ) / ((span : ℚ) + 1)) ∧
    signal_line xs = ewm_mean 9 (macd_line xs) := by
  cases xs with
  | nil => simp at h
  | cons x rest =>
    refine ⟨by simp [ewm_mean], ?_, rfl⟩
    have hlen : i < rest.length := by simpa using h
    have hrec := ewm_from_getD ((2 : ℚ) / ((span : ℚ) + 1)) rest x i hlen
    simpa [ewm_mean] using hrec

theorem C4_witness :
    (0 + 1 < ([(1 : ℚ), 2, 3] : List ℚ).length) ∧
    ((ewm_mean 9 [(1 : ℚ), 2, 3]).getD 0 0 = ([(1 : ℚ), 2, 3] : List ℚ).getD 0 0 ∧
      (ewm_mean 9 [(1 : ℚ), 2, 3]).getD (0 + 1) 0 =
        ([(1 : ℚ), 2, 3] : List ℚ).getD (0 + 1) 0 * ((2 : ℚ) / (((9 : ℕ) : ℚ) + 1)) +
          (ewm_mean 9 [(1 : ℚ), 2, 3]).getD 0 0 *
            (1 - (2 : ℚ) / (((9 : ℕ) : ℚ) + 1)) ∧
      signal_line [(1 : ℚ), 2, 3] = ewm_mean 9 (macd_line [(1 : ℚ), 2, 3])) :=
  ⟨by decide, C4_ema_recurrence 9 [(1 : ℚ), 2, 3] 0 (by decide)⟩

unseal Rat.add Rat.mul Rat.inv Rat.sub in
/-- The claim of C5 asserts RSI is undefined for the first 14 rows
(rows 0..13).  The code defines it already at row 13: `diff()` leaves NaN
at row 0, but the `apply` lambdas of src lines 114-115 turn that NaN into
a Gain/Loss of 0, so the 14-row rolling windows are already full at row
13.  On the 14-row series 2,1,2,1,... the RSI cell at row 13 is a number
(600/13), not NaN. -/
theorem C5_counterexample :
    (rsi_col [(2 : ℚ), 1, 2, 1, 2, 1, 2, 1, 2, 1, 2, 1, 2, 1]).getD 13 none ≠
      none := by
  decide

/-- C5 (amended): RSI is NaN for the first 13 rows (not 14: the row-0 NaN
price change becomes a 0 gain/loss, filling the first rolling window at
row 13); RSI is NaN whenever the 14-row average loss is exactly zero
(never substituted with 100 or infinity); and wherever RSI is a number it
equals `100 - 100/(1 + avg_gain/avg_loss)` and lies in [0, 100]. -/
theorem C5_rsi_policy (ps : List ℚ) (i : ℕ) :
    (i < 13 → (rsi_col ps).getD i none = none) ∧
    ((avg_loss ps).getD i none = some 0 → (rsi_col ps).getD i none = none) ∧
    (∀ r, (rsi_col ps).getD i none = some r →
      (0 ≤ r ∧ r ≤ 100) ∧
      ∃ g l, (avg_gain ps).getD i none = some g ∧
        (avg_loss ps).getD i none = some l ∧ l ≠ 0 ∧
        r = 100 - 100 / (1 + g / l)) := by
  refine ⟨?_, ?_, ?_⟩
  · intro h13
    rw [rsi_col_getD]
    by_cases hi : i < ps.length
    · rw [if_pos hi, avg_gain_getD, if_pos hi, if_pos (by omega)]
      rfl
    · rw [if_neg hi]
  · intro hz
    rw [rsi_col_getD]
    by_cases hi : i < ps.length
    · rw [if_pos hi, hz]
      cases hg : (avg_gain ps).getD i none with
      | none => rfl
      | some g => simp [rs_cell, rsi_cell]
    · rw [if_neg hi]
  · intro r hr
    rw [rsi_col_getD] at hr
    by_cases hi : i < ps.length
    · rw [if_pos hi] at hr
      cases hg : (avg_gain ps).getD i none with
      | none =>
        rw [hg] at hr
        exact absurd hr (by simp [rs_cell, rsi_cell])
      | some g =>
        cases hl : (avg_loss ps).getD i none with
        | none =>
          rw [hg, hl] at hr
          exact absurd hr (by simp [rs_cell, rsi_cell])
        | some l =>
          rw [hg, hl] at hr
          by_cases hl0 : l = 0
          · rw [hl0] at hr
            exact absurd hr (by simp [rs_cell, rsi_cell])
          · have hgl : rs_cell (some g) (some l) = some (g / l) := by
              simp [rs_cell, hl0]
            rw [hgl] at hr
            have hr' : 100 - 100 / (1 + g / l) = r := by
              simpa [rsi_cell] using hr
            have hg0 : 0 ≤ g := avg_gain_some_nonneg hg
            have hl0' : 0 ≤ l := avg_loss_some_nonneg hl
            have hlpos : 0 < l := lt_of_le_of_ne hl0' (Ne.symm hl0)
            have hq0 : 0 ≤ g / l := div_nonneg hg0 (le_of_lt hlpos)
            have h1q : (1 : ℚ) ≤ 1 + g / l := by linarith
            have hqpos : 0 < 100 / (1 + g / l) :=
              div_pos (by norm_num) (by linarith)
            have hqle : 100 / (1 + g / l) ≤ 100 :=
              div_le_self (by norm_num) h1q
            refine ⟨⟨?_, ?_⟩, g, l, rfl, rfl, hl0, hr'.symm⟩
            · rw [← hr']
              linarith
            · rw [← hr']
              linarith
    · rw [if_neg hi] at hr
      exact absurd hr (by simp)

unseal Rat.add Rat.mul Rat.inv Rat.sub in
theorem C5_witness :
    (rsi_col [(2 : ℚ), 1, 2, 1, 2, 1, 2, 1, 2, 1, 2, 1, 2, 1]).getD 5 none =
        none ∧
      ((0 : ℚ) ≤ 600 / 13 ∧ (600 / 13 : ℚ) ≤ 100) :=
  ⟨(C5_rsi_policy [(2 : ℚ), 1, 2, 1, 2, 1, 2, 1, 2, 1, 2, 1, 2, 1] 5).1
      (by norm_num),
    ((C5_rsi_policy [(2 : ℚ), 1, 2, 1, 2, 1, 2, 1, 2, 1, 2, 1, 2, 1] 13).2.2
        (600 / 13) (by decide)).1⟩

/-- C10: for every row `i ≥ 1` of the annotated series, `Gain[i] ≥ 0`,
`Loss[i] ≥ 0`, `Gain[i] - Loss[i] = Price_Change[i] = price[i] - price[i-1]`,
at most one of `Gain[i]` and `Loss[i]` is nonzero, and the rolling average
gain/loss is non-negative wherever it is defined. -/
theorem C10_gain_loss_decomposition (ps : List ℚ) (i : ℕ)
    (h1 : 1 ≤ i) (h2 : i < ps.length) :
    0 ≤ (gain_col ps).getD i 0 ∧
    0 ≤ (loss_col ps).getD i 0 ∧
    (gain_col ps).getD i 0 - (loss_col ps).getD i 0 =
      ps.getD i 0 - ps.getD (i - 1) 0 ∧
    (price_change ps).getD i none = some (ps.getD i 0 - ps.getD (i - 1) 0) ∧
    ((gain_col ps).getD i 0 = 0 ∨ (loss_col ps).getD i 0 = 0) ∧
    (∀ g, (avg_gain ps).getD i none = some g → 0 ≤ g) ∧
    (∀ l, (avg_loss ps).getD i none = some l → 0 ≤ l) := by
  have hne : i ≠ 0 := by omega
  have hgain : (gain_col ps).getD i 0 =
      gain_cell (some (ps.getD i 0 - ps.getD (i - 1) 0)) := by
    rw [gain_col_getD, if_pos h2, if_neg hne]
  have hloss : (loss_col ps).getD i 0 =
      loss_cell (some (ps.getD i 0 - ps.getD (i - 1) 0)) := by
    rw [loss_col_getD, if_pos h2, if_neg hne]
  refine ⟨?_, ?_, ?_, ?_, ?_, ?_, ?_⟩
  · rw [hgain]
    exact gain_cell_nonneg _
  · rw [hloss]
    exact loss_cell_nonneg _
  · rw [hgain, hloss]
    simp only [gain_cell, loss_cell]
    rcases lt_trichotomy (ps.getD i 0 - ps.getD (i - 1) 0) 0 with h | h | h
    · rw [if_neg (by linarith), if_pos h]
      ring
    · rw [if_neg (by linarith), if_neg (by linarith)]
      linarith
    · rw [if_pos h, if_neg (by linarith)]
      ring
  · rw [price_change_getD, if_pos h2, if_neg hne]
  · rw [hgain, hloss]
    simp only [gain_cell, loss_cell]
    rcases lt_trichotomy (ps.getD i 0 - ps.getD (i - 1) 0) 0 with h | h | h
    · left
      rw [if_neg (by linarith)]
    · left
      rw [if_neg (by linarith)]
    · right
      rw [if_neg (by linarith)]
  · intro g hg
    exact avg_gain_some_nonneg hg
  · intro l hl
    exact avg_loss_some_nonneg hl

theorem C10_witness :
    ((1 ≤ 1) ∧ 1 < ([(1 : ℚ), 3] : List ℚ).length) ∧
    (0 ≤ (gain_col [(1 : ℚ), 3]).getD 1 0 ∧
      0 ≤ (loss_col [(1 : ℚ), 3]).getD 1 0 ∧
      (gain_col [(1 : ℚ), 3]).getD 1 0 - (loss_col [(1 : ℚ), 3]).getD 1 0 =
        ([(1 : ℚ), 3] : List ℚ).getD 1 0 - ([(1 : ℚ), 3] : List ℚ).getD 0 0 ∧
      (price_change [(1 : ℚ), 3]).getD 1 none =
        some (([(1 : ℚ), 3] : List ℚ).getD 1 0 -
          ([(1 : ℚ), 3] : List ℚ).getD 0 0) ∧
      ((gain_col [(1 : ℚ), 3]).getD 1 0 = 0 ∨
        (loss_col [(1 : ℚ), 3]).getD 1 0 = 0) ∧
      (∀ g, (avg_gain [(1 : ℚ), 3]).getD 1 none = some g → 0 ≤ g) ∧
      (∀ l, (avg_loss [(1 : ℚ), 3]).getD 1 none = some l → 0 ≤ l)) :=
  ⟨⟨le_refl 1, by decide⟩,
    C10_gain_loss_decomposition [(1 : ℚ), 3] 1 (le_refl 1) (by decide)⟩

/-- A CSV cell of the written table: a date, a number, or NaN (pandas
writes NaN cells as empty strings; the distinction cell-level is what the
claims are about). -/
inductive Cell
  | date (d : Int)
  | num (q : ℚ)
  | nan
deriving DecidableEq

/-- Converts an optional numeric cell to a `Cell`. -/
def opt_cell : Option ℚ → Cell
  | some q => Cell.num q
  | none => Cell.nan

/-- The header written by `df_price.to_csv` (src line 137): every column
of the DataFrame in assignment order (src lines 95-127).  The intermediate
columns Price_Change, Gain, Loss, Avg_Gain, Avg_Loss and RS are never
dropped, so they are written too. -/
def csv_columns : List String :=
  ["date", "Closing Price (USD)", "50_MA", "100_MA", "150_MA", "200_MA",
   "200_EMA", "Price_Change", "Gain", "Loss", "Avg_Gain", "Avg_Loss", "RS",
   "RSI", "12_EMA", "26_EMA", "MACD_Line", "Signal_Line", "MACD_Histogram"]

/-- Modelled from the spec: the column list enumerated in section 3 of the
spec (date, closing price, the four moving averages, 200_EMA, RSI, 12_EMA,
26_EMA, MACD_Line, Signal_Line, MACD_Histogram), in that order, which the
claim C6 asserts is exactly what the destination file contains. -/
def spec_section3_columns : List String :=
  ["date", "Closing Price (USD)", "50_MA", "100_MA", "150_MA", "200_MA",
   "200_EMA", "RSI", "12_EMA", "26_EMA", "MACD_Line", "Signal_Line",
   "MACD_Histogram"]

/-- Row `i` of the annotated DataFrame for a normalized series: one cell
per column of `csv_columns`, computed by the indicator definitions above
(src lines 95-127). -/
def df_row (series : List (Int × ℚ)) (i : ℕ) : List Cell :=
  let ps := series.map Prod.snd
  [Cell.date ((series.map Prod.fst).getD i 0),
   Cell.num (ps.getD i 0),
   opt_cell ((rolling_mean 50 ps).getD i none),
   opt_cell ((rolling_mean 100 ps).getD i none),
   opt_cell ((rolling_mean 150 ps).getD i none),
   opt_cell ((rolling_mean 200 ps).getD i none),
   Cell.num ((ewm_mean 200 ps).getD i 0),
   opt_cell ((price_change ps).getD i none),
   Cell.num ((gain_col ps).getD i 0),
   Cell.num ((loss_col ps).getD i 0),
   opt_cell ((avg_gain ps).getD i none),
   opt_cell ((avg_loss ps).getD i none),
   opt_cell ((rs_col ps).getD i none),
   opt_cell ((rsi_col ps).getD i none),
   Cell.num ((ewm_mean 12 ps).getD i 0),
   Cell.num ((ewm_mean 26 ps).getD i 0),
   Cell.num ((macd_line ps).getD i 0),
   Cell.num ((signal_line ps).getD i 0),
   Cell.num ((macd_histogram ps).getD i 0)]

/-- The data rows of the annotated DataFrame: one per normalized date. -/
def df_rows (series : List (Int × ℚ)) : List (List Cell) :=
  (List.range series.length).map (df_row series)

/-- The destination file as a header line plus data rows. -/
structure CsvFile where
  header : List String
  rows : List (List Cell)
deriving DecidableEq

/-- Embeds `df_price.to_csv(csv_file_price, mode='w', header=True,
index=False)` (src line 137): mode `'w'` truncates, so the previous file
contents are discarded entirely and replaced by one header row plus the
DataFrame's rows. -/
def to_csv_overwrite (rows : List (List Cell)) (_previous : CsvFile) : CsvFile :=
  { header := csv_columns, rows := rows }

/-- The claim of C6 is false about the column set: the source never drops
the intermediate RSI work columns, so the written header also contains
Price_Change, Gain, Loss, Avg_Gain, Avg_Loss and RS and differs from the
column list enumerated in section 3 of the spec. -/
theorem C6_counterexample : csv_columns ≠ spec_section3_columns := by
  decide

/-- C6 (amended): after every successful run the destination file is fully
overwritten — its contents are independent of whatever was there before —
and consists of exactly one header row followed by exactly one row per
normalized date; the header is the DataFrame's 19 columns in assignment
order (the section-3 columns plus the intermediate columns Price_Change,
Gain, Loss, Avg_Gain, Avg_Loss, RS inserted between 200_EMA and RSI). -/
theorem C6_full_overwrite (series : List (Int × ℚ)) (prev prev' : CsvFile) :
    to_csv_overwrite (df_rows series) prev =
      to_csv_overwrite (df_rows series) prev' ∧
    (to_csv_overwrite (df_rows series) prev).header = csv_columns ∧
    (to_csv_overwrite (df_rows series) prev).rows.length = series.length ∧
    (∀ i, i < series.length →
      (to_csv_overwrite (df_rows series) prev).rows.getD i [] =
        df_row series i) := by
  refine ⟨rfl, rfl, by simp [to_csv_overwrite, df_rows], ?_⟩
  intro i hi
  show (df_rows series).getD i [] = df_row series i
  rw [df_rows, rangeMap_getD, if_pos hi]

theorem C6_witness :
    (0 < ([((0 : Int), (100 : ℚ))] : List (Int × ℚ)).length) ∧
    (to_csv_overwrite (df_rows [((0 : Int), (100 : ℚ))])
        ⟨["stale"], [[Cell.nan]]⟩).rows.getD 0 [] =
      df_row [((0 : Int), (100 : ℚ))] 0 :=
  ⟨by decide,
    (C6_full_overwrite [((0 : Int), (100 : ℚ))] ⟨["stale"], [[Cell.nan]]⟩
        ⟨[], []⟩).2.2.2 0 (by decide)⟩

/-- The transient statuses configured at src line 31. -/
def status_forcelist : List ℕ := [429, 500, 502, 503, 504]

/-- Embeds `urllib3.util.retry.Retry.get_backoff_time` as configured by the
retry strategy of src lines 65-71 (urllib3 2.x): after `nbRetries`
consecutive errors the sleep before the next attempt is
`backoff_factor * 2^(nbRetries - 1)`, clamped to [0, DEFAULT_BACKOFF_MAX]
with DEFAULT_BACKOFF_MAX = 120; there is no sleep before the first
attempt. -/
def get_backoff_time (backoffFactor : ℚ) (nbRetries : ℕ) : ℚ :=
  if nbRetries = 0 then 0
  else max 0 (min 120 (backoffFactor * 2 ^ (nbRetries - 1)))

/-- Embeds the retry loop of urllib3's `HTTPConnectionPool.urlopen` under
the configuration of src lines 64-74: `Retry(total=RETRIES, ...)` allows
`RETRIES` retries after the initial request; each forcelisted status
consumes one retry and sleeps `get_backoff_time`; when the retry budget is
exhausted, `raise_on_status=False` makes the pool return the last response
instead of raising.  Arguments: remaining retries, number of failures so
far (`statuses k` is the status of attempt `k+1`).  Returns (number of
attempts issued, sleeps performed, final status returned to the caller). -/
def retry_loop (backoffFactor : ℚ) (statuses : ℕ → ℕ) :
    ℕ → ℕ → ℕ × List ℚ × ℕ
  | 0, failures => (1, [], statuses failures)
  | r + 1, failures =>
    if statuses failures ∈ status_forcelist then
      let rest := retry_loop backoffFactor statuses r (failures + 1)
      (rest.1 + 1, get_backoff_time backoffFactor (failures + 1) :: rest.2.1,
        rest.2.2)
    else (1, [], statuses failures)

/-- Embeds `session.get(API_URL, params=params, timeout=10)` (src line 77)
with the mounted retry adapter: the full fetch, starting from zero
failures with the configured retry budget. -/
def session_get (backoffFactor : ℚ) (totalRetries : ℕ)
    (statuses : ℕ → ℕ) : ℕ × List ℚ × ℕ :=
  retry_loop backoffFactor statuses totalRetries 0

theorem retry_loop_all_forced (b : ℚ) (st : ℕ → ℕ)
    (h : ∀ k, st k ∈ status_forcelist) :
    ∀ rem fails, retry_loop b st rem fails =
      (rem + 1,
        (List.range rem).map (fun j => get_backoff_time b (fails + 1 + j)),
        st (fails + rem)) := by
  intro rem
  induction rem with
  | zero =>
    intro fails
    simp [retry_loop]
  | succ r ih =>
    intro fails
    rw [retry_loop, if_pos (h fails), ih (fails + 1)]
    refine congrArg₂ Prod.mk (by rfl) (congrArg₂ Prod.mk ?_ ?_)
    · rw [List.range_succ_eq_map, List.map_cons, List.map_map]
      refine congrArg₂ List.cons (by norm_num) ?_
      refine List.map_congr_left ?_
      intro j hj
      show get_backoff_time b (fails + 1 + 1 + j) = get_backoff_time b (fails + 1 + (j + 1))
      have : fails + 1 + 1 + j = fails + 1 + (j + 1) := by omega
      rw [this]
    · have : fails + 1 + r = fails + (r + 1) := by omega
      rw [this]

/-- The claim of C2 is false about the attempt count: `Retry(total=RETRIES)`
(src line 66) allows `RETRIES` retries in addition to the initial request,
so with the default `RETRIES = 5` and every attempt returning 500 the
session issues 6 attempts, not 5. -/
theorem C2_counterexample : (session_get 1 5 (fun _ => 500)).1 ≠ 5 := by
  decide

/-- C2 (amended): when every attempt returns a forcelisted status, the
fetcher issues exactly `RETRIES + 1` attempts (the initial request plus
`RETRIES` retries); the delay before attempt `n` (for `2 ≤ n ≤ RETRIES+1`,
and as long as it is below urllib3's 120-second backoff cap) is
`backoff_factor * 2^(n-2)`; and because `raise_on_status=False`
(src line 70) the last forcelisted response is returned to the caller,
whose `status_code == 200` check then fails — the run surfaces the failure
by logging and writing nothing. -/
theorem C2_retry_exhaustion (b : ℚ) (total : ℕ) (st : ℕ → ℕ)
    (hst : ∀ k, st k ∈ status_forcelist) (hb : 0 ≤ b) :
    (session_get b total st).1 = total + 1 ∧
    (∀ n, 2 ≤ n → n ≤ total + 1 → b * 2 ^ (n - 2) ≤ 120 →
      (session_get b total st).2.1.getD (n - 2) 0 = b * 2 ^ (n - 2)) ∧
    (session_get b total st).2.2 = st total ∧
    (session_get b total st).2.2 ≠ 200 := by
  have hmain := retry_loop_all_forced b st hst total 0
  rw [session_get, hmain]
  refine ⟨rfl, ?_, ?_, ?_⟩
  · intro n h2 hle hcap
    have hidx : n - 2 < total := by omega
    show ((List.range total).map
        (fun j => get_backoff_time b (0 + 1 + j))).getD (n - 2) 0 =
      b * 2 ^ (n - 2)
    rw [rangeMap_getD, if_pos hidx]
    have hnz : 0 + 1 + (n - 2) ≠ 0 := by omega
    rw [get_backoff_time, if_neg hnz]
    have harg : 0 + 1 + (n - 2) - 1 = n - 2 := by omega
    rw [harg, min_eq_right hcap,
      max_eq_right (mul_nonneg hb (by positivity))]
  · show st (0 + total) = st total
    rw [Nat.zero_add]
  · show st (0 + total) ≠ 200
    intro hEq
    have hmem := hst (0 + total)
    rw [hEq] at hmem
    simp [status_forcelist] at hmem

theorem C2_witness :
    ((∀ k : ℕ, (fun _ : ℕ => 500) k ∈ status_forcelist) ∧ (0 : ℚ) ≤ 1) ∧
    ((session_get 1 5 (fun _ => 500)).1 = 5 + 1 ∧
      (session_get 1 5 (fun _ => 500)).2.2 ≠ 200) :=
  ⟨⟨fun _ => by show (500 : ℕ) ∈ status_forcelist; decide, by norm_num⟩,
    ⟨(C2_retry_exhaustion 1 5 (fun _ => 500)
        (fun _ => by show (500 : ℕ) ∈ status_forcelist; decide)
        (by norm_num)).1,
      (C2_retry_exhaustion 1 5 (fun _ => 500)
        (fun _ => by show (500 : ℕ) ∈ status_forcelist; decide)
        (by norm_num)).2.2.2⟩⟩

/-- The outcome of the `session.get` call as observed by
`get_bitcoin_daily_transactions`: either an exception was raised before
the CSV write — a requests exception caught at src line 144 or any other
exception caught at src line 146, both of which only log — or a response
arrived with a status code and a decoded prices array
(`data.get('prices', [])` maps a missing key to `[]`, src line 83). -/
inductive FetchOutcome
  | raisedException
  | response (status : ℕ) (prices : List (Int × ℚ))

/-- Embeds the control flow of `get_bitcoin_daily_transactions`
(src lines 48-147) as a function from the fetch outcome and the previous
destination contents to the destination contents after the run: the CSV
write of src line 137 executes only when the status is 200 and the prices
array is non-empty; every other path returns having only logged. -/
def get_bitcoin_daily_transactions (r : FetchOutcome) (previous : CsvFile) :
    CsvFile :=
  match r with
  | FetchOutcome.raisedException => previous
  | FetchOutcome.response status prices =>
    if status = 200 then
      if prices = [] then previous
      else to_csv_overwrite (df_rows (normalize_series prices)) previous
    else previous

/-- C9: on every failure path of a run — an exception raised before the
CSV write, a non-200 status, or a missing/empty prices array — the
destination file is left exactly as the previous run wrote it; the write
happens only on the single all-checks-passed path. -/
theorem C9_no_write_on_failure (r : FetchOutcome) (prev : CsvFile)
    (h : r = FetchOutcome.raisedException ∨
      ∃ s p, r = FetchOutcome.response s p ∧ (s ≠ 200 ∨ p = [])) :
    get_bitcoin_daily_transactions r prev = prev := by
  rcases h with h | ⟨s, p, rfl, hsp⟩
  · rw [h]
    rfl
  · rcases hsp with hs | hp
    · simp [get_bitcoin_daily_transactions, hs]
    · by_cases hs : s = 200
      · simp [get_bitcoin_daily_transactions, hs, hp]
      · simp [get_bitcoin_daily_transactions, hs]

theorem C9_witness :
    (FetchOutcome.response 500 [((0 : Int), (100 : ℚ))] =
        FetchOutcome.raisedException ∨
      ∃ s p, FetchOutcome.response 500 [((0 : Int), (100 : ℚ))] =
          FetchOutcome.response s p ∧ (s ≠ 200 ∨ p = [])) ∧
    get_bitcoin_daily_transactions
        (FetchOutcome.response 500 [((0 : Int), (100 : ℚ))]) ⟨[], []⟩ =
      ⟨[], []⟩ :=
  ⟨Or.inr ⟨500, [((0 : Int), (100 : ℚ))], rfl, Or.inl (by norm_num)⟩,
    C9_no_write_on_failure _ _
      (Or.inr ⟨500, [((0 : Int), (100 : ℚ))], rfl, Or.inl (by norm_num)⟩)⟩

/-- An observed event at the scheduler loop of `start_scheduler`
(src lines 156-163): a tick whose pending run succeeded, a tick whose
pending run failed internally (`get_bitcoin_daily_transactions` catches
its own exceptions at src lines 144-147 and returns, so the loop
continues), an exception escaping the loop body itself, or a caught
termination signal. -/
inductive TickEvent
  | runOk
  | runFailed
  | loopFault
  | shutdownSignal
deriving DecidableEq

/-- Embeds the process-level control flow around the scheduler loop
(src lines 149-185).  Returns `some code` when the process terminates
while consuming the given events, `none` when the loop is still running
afterwards.  A termination signal runs `graceful_shutdown`, which calls
`sys.exit(0)`.  A loop fault is caught by `except Exception` at src line
162, logged, and `start_scheduler` returns; `__main__` then falls off its
end, so the interpreter also exits with code 0. -/
def start_scheduler : List TickEvent → Option ℕ
  | [] => none
  | e :: rest =>
    match e with
    | TickEvent.runOk => start_scheduler rest
    | TickEvent.runFailed => start_scheduler rest
    | TickEvent.loopFault => some 0
    | TickEvent.shutdownSignal => some 0

/-- The claim of C7 is false about the exit code of a scheduler-loop
fault: the exception is caught and logged (src lines 162-163),
`start_scheduler` returns normally, and the process exits with code 0,
not a non-zero code. -/
theorem C7_counterexample :
    ¬ ∃ c, start_scheduler [TickEvent.loopFault] = some c ∧ c ≠ 0 := by
  rintro ⟨c, hc, hne⟩
  exact hne (Option.some.inj hc).symm

/-- C7 (amended): the process exits with code 0 on graceful shutdown, and
also with code 0 on an unrecoverable scheduler-loop fault (the fault is
caught, logged, and the main function returns normally); a scheduler-loop
fault and a shutdown signal are the only events that terminate the
process — a failed pipeline run never does. -/
theorem C7_exit_codes (evs : List TickEvent) :
    (∀ c, start_scheduler evs = some c → c = 0) ∧
    (start_scheduler evs = none ↔
      TickEvent.loopFault ∉ evs ∧ TickEvent.shutdownSignal ∉ evs) ∧
    start_scheduler (TickEvent.shutdownSignal :: evs) = some 0 ∧
    start_scheduler (TickEvent.loopFault :: evs) = some 0 := by
  refine ⟨?_, ?_, rfl, rfl⟩
  · intro c
    induction evs with
    | nil => exact fun hc => absurd hc (by simp [start_scheduler])
    | cons e rest ih =>
      cases e with
      | runOk => exact ih
      | runFailed => exact ih
      | loopFault => exact fun hc => (Option.some.inj hc).symm
      | shutdownSignal => exact fun hc => (Option.some.inj hc).symm
  · induction evs with
    | nil => simp [start_scheduler]
    | cons e rest ih =>
      cases e with
      | runOk => simpa [start_scheduler] using ih
      | runFailed => simpa [start_scheduler] using ih
      | loopFault => simp [start_scheduler]
      | shutdownSignal => simp [start_scheduler]

theorem C7_witness :
    start_scheduler [TickEvent.runFailed] = none ∧
    start_scheduler [TickEvent.shutdownSignal, TickEvent.runFailed] = some 0 :=
  ⟨(C7_exit_codes [TickEvent.runFailed]).2.1.mpr ⟨by decide, by decide⟩,
    (C7_exit_codes [TickEvent.runFailed]).2.2.1⟩

/-- A `run_once` pipeline invocation modelled as `totalSteps` sequential
atomic interpreter operations.  CPython delivers a caught signal between
two operations of the main thread; `graceful_shutdown` (src lines 165-170)
then calls `sys.exit(0)` immediately, raising `SystemExit`, which neither
`except requests.exceptions.RequestException` nor `except Exception`
(src lines 144-147) intercepts — `SystemExit` does not derive from
`Exception` — so the run aborts at that point.  `steps_executed` is the
number of operations of the run that execute when the signal lands just
before operation `k` (0-indexed); `none` means no signal arrives. -/
def steps_executed (totalSteps : ℕ) (signalAt : Option ℕ) : ℕ :=
  match signalAt with
  | none => totalSteps
  | some k => min k totalSteps

/-- The state of the destination file after a run whose CSV write spans
the operations `[writeStart, totalSteps)`. -/
inductive SinkState
  | untouched
  | halfWritten
  | fullyWritten
deriving DecidableEq

/-- Destination-file state resulting from executing a prefix of the run:
untouched if the write never started, half-written if it started but did
not finish, fully written otherwise. -/
def sink_after (writeStart totalSteps : ℕ) (signalAt : Option ℕ) :
    SinkState :=
  if steps_executed totalSteps signalAt ≤ writeStart then SinkState.untouched
  else if steps_executed totalSteps signalAt < totalSteps then
    SinkState.halfWritten
  else SinkState.fullyWritten

/-- The claim of C8 is false: a signal landing before operation 3 of a
4-operation run whose write spans operations [2, 4) aborts the run (3 of
4 operations execute, the run does not finish) and leaves the destination
half-written. -/
theorem C8_counterexample :
    steps_executed 4 (some 3) ≠ 4 ∧
    sink_after 2 4 (some 3) = SinkState.halfWritten := by
  decide

/-- C8 (amended): a shutdown signal caught while a run is in flight makes
`graceful_shutdown` raise `SystemExit` immediately: the run aborts at the
point the signal lands (it is not allowed to finish), the destination is
left half-written whenever the signal lands strictly inside the write, and
no further runs are scheduled afterwards (the signal terminates the
scheduler with exit code 0). -/
theorem C8_signal_aborts_run (totalSteps writeStart k : ℕ)
    (hk : k < totalSteps) :
    steps_executed totalSteps (some k) = k ∧
    (writeStart < k → sink_after writeStart totalSteps (some k) =
      SinkState.halfWritten) ∧
    (∀ evs, start_scheduler (TickEvent.shutdownSignal :: evs) = some 0) := by
  have hmin : steps_executed totalSteps (some k) = k := by
    simp [steps_executed, Nat.min_eq_left (Nat.le_of_lt hk)]
  refine ⟨hmin, ?_, fun evs => rfl⟩
  intro hw
  rw [sink_after, hmin, if_neg (by omega), if_pos hk]

theorem C8_witness :
    (3 < 4) ∧
    (steps_executed 4 (some 3) = 3 ∧
      (2 < 3 → sink_after 2 4 (some 3) = SinkState.halfWritten) ∧
      (∀ evs, start_scheduler (TickEvent.shutdownSignal :: evs) = some 0)) :=
  ⟨by decide, C8_signal_aborts_run 4 2 3 (by decide)⟩
